import Mathlib

/-!
Verification of the ACPE sudden-acceleration / braking simulation.

The numeric core of the repository is embedded over `ℚ`:
two fixed-step Euler integration loops (`simulate_with_acpe`,
`simulate_no_acpe`), the collision-speed extraction performed by the
script after the runs, and the speed-reduction metric.
-/

set_option maxHeartbeats 1000000

/-- One trajectory record: the Python lists `time`, `velocity`, `position`
zipped into a single sample. -/
structure Sample where
  time : ℚ
  velocity : ℚ
  position : ℚ
deriving DecidableEq

/-- Acceleration chosen by the with-ACPE loop body (source lines 34-37):
keep accelerating while the new time is below the delay, afterwards brake
while the previous velocity is positive, else coast. -/
def acpePolicy (delay_s brake_decel accel : ℚ) (t v : ℚ) : ℚ :=
  if t < delay_s then accel else if v > 0 then brake_decel else 0

/-- Acceleration chosen by the no-ACPE loop body (source line 55):
always the sudden acceleration. -/
def noAcpePolicy (accel : ℚ) (_t _v : ℚ) : ℚ :=
  accel

/-- The simulation while-loop (source lines 32-45 and 53-63), parametrised
by the acceleration policy.  `t0`, `v0`, `s0` are the last appended time,
velocity and position.  The loop runs while `t0 < max_time` and no collision
was flagged; each iteration advances time by `dt`, clamps the velocity at 0,
advances the position with the updated velocity, appends the sample, and
stops as soon as the appended position reaches the obstacle.  The `fuel`
argument only makes the recursion structural; the callers pass 1001, and the
`t0 < max_time` guard always fails after at most 1000 iterations of this
exact-rational model, so the fuel-exhaustion branch is unreachable there.
One caveat: the source accumulates the time in IEEE doubles, where 1000
additions of 0.01 fall just short of 10 (`floatTimeAfter1000` below), so the
real loop passes the guard once more than this exact model; that gap is
material only to the step-count bound, not to the clamping, monotonicity,
domination or policy-agreement facts proved here. -/
def simLoop (policy : ℚ → ℚ → ℚ) (distance_to_obstacle dt max_time : ℚ) :
    Nat → ℚ → ℚ → ℚ → List Sample × Bool
  | 0, _, _, _ => ([], false)
  | fuel + 1, t0, v0, s0 =>
    if t0 < max_time then
      let t := t0 + dt
      let a := policy t v0
      let v := max 0 (v0 + a * dt)
      let s := s0 + v * dt
      if s ≥ distance_to_obstacle then
        ([⟨t, v, s⟩], true)
      else
        let rest := simLoop policy distance_to_obstacle dt max_time fuel t v s
        (⟨t, v, s⟩ :: rest.1, rest.2)
    else ([], false)

/-- A full simulation run: the initial `(0, 0, 0)` sample followed by the
samples appended by the loop, together with the collision flag. -/
def simulate (policy : ℚ → ℚ → ℚ) (distance_to_obstacle dt max_time : ℚ) (fuel : Nat) :
    List Sample × Bool :=
  let r := simLoop policy distance_to_obstacle dt max_time fuel 0 0 0
  (⟨0, 0, 0⟩ :: r.1, r.2)

/-- Source lines 27-46 with the default step `dt = 0.01` and budget
`max_time = 10` used at the call site (line 67). -/
def simulate_with_acpe (distance_to_obstacle delay_s brake_decel accel : ℚ) :
    List Sample × Bool :=
  simulate (acpePolicy delay_s brake_decel accel) distance_to_obstacle (1/100) 10 1001

/-- Source lines 48-64 with the default step and budget used at the call
site (line 68). -/
def simulate_no_acpe (distance_to_obstacle accel : ℚ) : List Sample × Bool :=
  simulate (noAcpePolicy accel) distance_to_obstacle (1/100) 10 1001

/-- Collision speed in KPH as the script extracts it (lines 87-113):
when the run flagged a collision, the velocity (times 3.6) of the first
trajectory sample whose position reaches the obstacle distance; when it did
not, 0. -/
def collisionSpeedKph (traj : List Sample) (collision : Bool)
    (distance_to_obstacle : ℚ) : ℚ :=
  if collision then
    match traj.find? (fun x => decide (x.position ≥ distance_to_obstacle)) with
    | some x => x.velocity * 3.6
    | none => 0
  else 0

/-- The reduction percentage of source line 132, including its
division-by-zero guard. -/
def reduction (collision_speed_noacpe_kph collision_speed_kph : ℚ) : ℚ :=
  if collision_speed_noacpe_kph > 0 then
    (collision_speed_noacpe_kph - collision_speed_kph) / collision_speed_noacpe_kph * 100
  else 0

/-- Everything the script derives from the four slider parameters:
both runs, both extracted collision speeds, and the reduction metric
(computed, as in line 131, only when both runs collide). -/
structure ComparisonResult where
  acpe : List Sample × Bool
  no_acpe : List Sample × Bool
  acpe_speed_kph : ℚ
  no_acpe_speed_kph : ℚ
  speed_reduction_percent : ℚ
deriving DecidableEq

/-- Top level of the script (lines 25, 67-68, 87-113, 131-135): convert the
delay to seconds, run both simulations, extract both collision speeds and
the reduction metric. -/
def run_comparison (distance_to_obstacle delay_ms brake_decel accel : ℚ) :
    ComparisonResult :=
  let delay_s := delay_ms / 1000
  let w := simulate_with_acpe distance_to_obstacle delay_s brake_decel accel
  let n := simulate_no_acpe distance_to_obstacle accel
  let ws := collisionSpeedKph w.1 w.2 distance_to_obstacle
  let ns := collisionSpeedKph n.1 n.2 distance_to_obstacle
  { acpe := w
    no_acpe := n
    acpe_speed_kph := ws
    no_acpe_speed_kph := ns
    speed_reduction_percent := if w.2 && n.2 then reduction ns ws else 0 }

/-- Sampling times of the loop: `tAt dt k` is the time of the `k`-th sample. -/
def tAt (dt : ℚ) : Nat → ℚ
  | 0 => 0
  | k + 1 => tAt dt k + dt

/-- The `(velocity, position)` recurrence the loop computes, indexed by the
step number.  The body is literally the loop body of `simLoop`. -/
def stateAt (policy : ℚ → ℚ → ℚ) (dt : ℚ) : Nat → ℚ × ℚ
  | 0 => (0, 0)
  | k + 1 =>
    let p := stateAt policy dt k
    let t := tAt dt k + dt
    let a := policy t p.1
    let v := max 0 (p.1 + a * dt)
    (v, p.2 + v * dt)

/-- The `k`-th sample of a run, as given by the recurrence. -/
def sampleAt (policy : ℚ → ℚ → ℚ) (dt : ℚ) (k : Nat) : Sample :=
  ⟨tAt dt k, (stateAt policy dt k).1, (stateAt policy dt k).2⟩

theorem tAt_eq (dt : ℚ) : ∀ k : Nat, tAt dt k = (k : ℚ) * dt := by
  intro k
  induction k with
  | zero => simp [tAt]
  | succ n ih => push_cast [tAt, ih]; ring

theorem stateAt_velocity_nonneg (policy : ℚ → ℚ → ℚ) (dt : ℚ) :
    ∀ k : Nat, 0 ≤ (stateAt policy dt k).1 := by
  intro k
  cases k with
  | zero => exact le_refl 0
  | succ n => exact le_max_left 0 _

theorem stateAt_succ_velocity (policy : ℚ → ℚ → ℚ) (dt : ℚ) (k : Nat) :
    (stateAt policy dt (k + 1)).1
      = max 0 ((stateAt policy dt k).1
          + policy (tAt dt (k + 1)) (stateAt policy dt k).1 * dt) := rfl

theorem stateAt_succ_position (policy : ℚ → ℚ → ℚ) (dt : ℚ) (k : Nat) :
    (stateAt policy dt (k + 1)).2
      = (stateAt policy dt k).2 + (stateAt policy dt (k + 1)).1 * dt := rfl

theorem stateAt_position_mono (policy : ℚ → ℚ → ℚ) (dt : ℚ) (hdt : 0 ≤ dt) :
    ∀ j k : Nat, j ≤ k → (stateAt policy dt j).2 ≤ (stateAt policy dt k).2 := by
  intro j k hjk
  induction k with
  | zero => simp_all
  | succ n ih =>
    rcases Nat.lt_or_ge j (n + 1) with h | h
    · refine le_trans (ih (Nat.lt_succ_iff.mp h)) ?_
      rw [stateAt_succ_position]
      have hv : 0 ≤ (stateAt policy dt (n + 1)).1 := stateAt_velocity_nonneg _ _ _
      nlinarith
    · have : j = n + 1 := le_antisymm hjk h
      simp [this]

theorem simLoop_succ_state (policy : ℚ → ℚ → ℚ) (d dt mt : ℚ) (n k : Nat) :
    simLoop policy d dt mt (n + 1) (tAt dt k) (stateAt policy dt k).1 (stateAt policy dt k).2
      = if tAt dt k < mt then
          if (stateAt policy dt (k + 1)).2 ≥ d then
            ([sampleAt policy dt (k + 1)], true)
          else
            (sampleAt policy dt (k + 1)
                :: (simLoop policy d dt mt n (tAt dt (k + 1))
                      (stateAt policy dt (k + 1)).1 (stateAt policy dt (k + 1)).2).1,
              (simLoop policy d dt mt n (tAt dt (k + 1))
                  (stateAt policy dt (k + 1)).1 (stateAt policy dt (k + 1)).2).2)
        else ([], false) := rfl

theorem simLoop_get? (policy : ℚ → ℚ → ℚ) (d dt mt : ℚ) :
    ∀ (fuel k i : Nat),
      i < ((simLoop policy d dt mt fuel (tAt dt k)
        (stateAt policy dt k).1 (stateAt policy dt k).2).1).length →
      ((simLoop policy d dt mt fuel (tAt dt k)
        (stateAt policy dt k).1 (stateAt policy dt k).2).1)[i]?
        = some (sampleAt policy dt (k + 1 + i)) := by
  intro fuel
  induction fuel with
  | zero => intro k i hi; simp [simLoop] at hi
  | succ n ih =>
    intro k i hi
    rw [simLoop_succ_state] at hi ⊢
    by_cases hg : tAt dt k < mt
    · rw [if_pos hg] at hi ⊢
      by_cases hcol : (stateAt policy dt (k + 1)).2 ≥ d
      · rw [if_pos hcol] at hi ⊢
        cases i with
        | zero => simp
        | succ j => simp at hi
      · rw [if_neg hcol] at hi ⊢
        cases i with
        | zero => simp
        | succ j =>
          simp only [List.length_cons, Nat.succ_lt_succ_iff] at hi
          have hj := ih (k + 1) j hi
          simp only [List.getElem?_cons_succ]
          rw [hj]
          have harith : k + 1 + 1 + j = k + 1 + (j + 1) := by omega
          rw [harith]
    · rw [if_neg hg] at hi
      simp at hi

theorem simulate_get? (policy : ℚ → ℚ → ℚ) (d dt mt : ℚ) (fuel : Nat) :
    ∀ i : Nat, i < ((simulate policy d dt mt fuel).1).length →
      ((simulate policy d dt mt fuel).1)[i]? = some (sampleAt policy dt i) := by
  intro i hi
  cases i with
  | zero =>
    show (simulate policy d dt mt fuel).1[0]? = some (sampleAt policy dt 0)
    simp only [simulate, List.getElem?_cons_zero]
    rfl
  | succ j =>
    have hi' : j < ((simLoop policy d dt mt fuel (tAt dt 0)
        (stateAt policy dt 0).1 (stateAt policy dt 0).2).1).length := by
      simpa [simulate] using Nat.lt_of_succ_lt_succ hi
    have hj := simLoop_get? policy d dt mt fuel 0 j hi'
    have harith : 0 + 1 + j = j + 1 := by omega
    rw [harith] at hj
    simp only [simulate, List.getElem?_cons_succ]
    exact hj

theorem simulate_get (policy : ℚ → ℚ → ℚ) (d dt mt : ℚ) (fuel : Nat)
    (i : Nat) (hi : i < ((simulate policy d dt mt fuel).1).length) :
    ((simulate policy d dt mt fuel).1).get ⟨i, hi⟩ = sampleAt policy dt i := by
  have h := simulate_get? policy d dt mt fuel i hi
  rw [List.getElem?_eq_getElem hi] at h
  simpa [List.get_eq_getElem] using h

theorem tAt_lt_iff (k : Nat) : tAt (1/100) k < 10 ↔ k < 1000 := by
  rw [tAt_eq]
  constructor
  · intro h
    by_contra hk
    push_neg at hk
    have : (1000 : ℚ) ≤ (k : ℚ) := by exact_mod_cast hk
    linarith
  · intro h
    have : (k : ℚ) < 1000 := by exact_mod_cast h
    linarith

theorem simLoop_length (policy : ℚ → ℚ → ℚ) (d : ℚ) :
    ∀ (fuel k : Nat) (v s : ℚ),
      ((simLoop policy d (1/100) 10 fuel (tAt (1/100) k) v s).1).length ≤ 1000 - k := by
  intro fuel
  induction fuel with
  | zero => intro k v s; simp [simLoop]
  | succ n ih =>
    intro k v s
    simp only [simLoop]
    by_cases hg : tAt (1/100) k < 10
    · have hk : k < 1000 := (tAt_lt_iff k).mp hg
      rw [if_pos hg]
      by_cases hcol : s + max 0 (v + policy (tAt (1/100) k + 1/100) v * (1/100)) * (1/100) ≥ d
      · rw [if_pos hcol]
        simp
        omega
      · rw [if_neg hcol]
        simp only [List.length_cons]
        have hrec := ih (k + 1) (max 0 (v + policy (tAt (1/100) k + 1/100) v * (1/100)))
          (s + max 0 (v + policy (tAt (1/100) k + 1/100) v * (1/100)) * (1/100))
        have harg : tAt (1/100) (k + 1) = tAt (1/100) k + 1/100 := rfl
        rw [harg] at hrec
        omega
    · rw [if_neg hg]
      simp

theorem simulate_length (policy : ℚ → ℚ → ℚ) (d : ℚ) :
    ((simulate policy d (1/100) 10 1001).1).length ≤ 1001 := by
  have h := simLoop_length policy d 1001 0 0 0
  have harg : tAt (1/100) 0 = 0 := rfl
  rw [harg] at h
  simp only [simulate, List.length_cons]
  omega

theorem simLoop_col (policy : ℚ → ℚ → ℚ) (d dt mt : ℚ) :
    ∀ (fuel k : Nat),
      (simLoop policy d dt mt fuel (tAt dt k)
        (stateAt policy dt k).1 (stateAt policy dt k).2).2 = true →
      1 ≤ ((simLoop policy d dt mt fuel (tAt dt k)
          (stateAt policy dt k).1 (stateAt policy dt k).2).1).length ∧
      d ≤ (stateAt policy dt (k + ((simLoop policy d dt mt fuel (tAt dt k)
          (stateAt policy dt k).1 (stateAt policy dt k).2).1).length)).2 ∧
      (∀ i, 1 ≤ i → i < ((simLoop policy d dt mt fuel (tAt dt k)
          (stateAt policy dt k).1 (stateAt policy dt k).2).1).length →
        (stateAt policy dt (k + i)).2 < d) := by
  intro fuel
  induction fuel with
  | zero => intro k hc; simp [simLoop] at hc
  | succ n ih =>
    intro k hc
    rw [simLoop_succ_state] at hc ⊢
    by_cases hg : tAt dt k < mt
    · rw [if_pos hg] at hc ⊢
      by_cases hcol : (stateAt policy dt (k + 1)).2 ≥ d
      · rw [if_pos hcol]
        refine ⟨by simp, by simpa using hcol, ?_⟩
        intro i h1 h2
        simp at h2
        omega
      · rw [if_neg hcol] at hc ⊢
        have hrest := ih (k + 1) hc
        obtain ⟨h1, h2, h3⟩ := hrest
        simp only [List.length_cons]
        refine ⟨by omega, ?_, ?_⟩
        · have harith : k + (((simLoop policy d dt mt n (tAt dt (k + 1))
              (stateAt policy dt (k + 1)).1 (stateAt policy dt (k + 1)).2).1).length + 1)
              = k + 1 + ((simLoop policy d dt mt n (tAt dt (k + 1))
              (stateAt policy dt (k + 1)).1 (stateAt policy dt (k + 1)).2).1).length := by
            omega
          rw [harith]
          exact h2
        · intro i hi1 hi2
          rcases eq_or_lt_of_le hi1 with h | h
          · have : k + i = k + 1 := by omega
            rw [this]
            exact lt_of_not_ge hcol
          · have harith : k + i = k + 1 + (i - 1) := by omega
            rw [harith]
            exact h3 (i - 1) (by omega) (by omega)
    · rw [if_neg hg] at hc
      simp at hc

theorem simLoop_col_complete (policy : ℚ → ℚ → ℚ) (d : ℚ) :
    ∀ (fuel k j : Nat), k < j → j ≤ 1000 → j ≤ k + fuel →
      d ≤ (stateAt policy (1/100) j).2 →
      (simLoop policy d (1/100) 10 fuel (tAt (1/100) k)
        (stateAt policy (1/100) k).1 (stateAt policy (1/100) k).2).2 = true ∧
      ((simLoop policy d (1/100) 10 fuel (tAt (1/100) k)
        (stateAt policy (1/100) k).1 (stateAt policy (1/100) k).2).1).length ≤ j - k := by
  intro fuel
  induction fuel with
  | zero => intro k j h1 h2 h3 h4; omega
  | succ n ih =>
    intro k j h1 h2 h3 h4
    have hg : tAt (1/100) k < 10 := (tAt_lt_iff k).mpr (by omega)
    rw [simLoop_succ_state, if_pos hg]
    by_cases hcol : (stateAt policy (1/100) (k + 1)).2 ≥ d
    · rw [if_pos hcol]
      exact ⟨rfl, by simp; omega⟩
    · rw [if_neg hcol]
      have hne : k + 1 ≠ j := by
        intro he
        rw [he] at hcol
        exact hcol h4
      have hrec := ih (k + 1) j (by omega) h2 (by omega) h4
      obtain ⟨hc, hl⟩ := hrec
      refine ⟨hc, ?_⟩
      simp only [List.length_cons]
      omega

theorem simLoop_find? (policy : ℚ → ℚ → ℚ) (d dt mt : ℚ) :
    ∀ (fuel k : Nat),
      (simLoop policy d dt mt fuel (tAt dt k)
        (stateAt policy dt k).1 (stateAt policy dt k).2).2 = true →
      ((simLoop policy d dt mt fuel (tAt dt k)
        (stateAt policy dt k).1 (stateAt policy dt k).2).1).find?
          (fun x => decide (x.position ≥ d))
        = some (sampleAt policy dt (k + ((simLoop policy d dt mt fuel (tAt dt k)
            (stateAt policy dt k).1 (stateAt policy dt k).2).1).length)) := by
  intro fuel
  induction fuel with
  | zero => intro k hc; simp [simLoop] at hc
  | succ n ih =>
    intro k hc
    rw [simLoop_succ_state] at hc ⊢
    by_cases hg : tAt dt k < mt
    · rw [if_pos hg] at hc ⊢
      by_cases hcol : (stateAt policy dt (k + 1)).2 ≥ d
      · rw [if_pos hcol]
        have hp : (fun x => decide (x.position ≥ d)) (sampleAt policy dt (k + 1)) = true := by
          simpa [sampleAt] using hcol
        simp [List.find?_cons, hp]
      · rw [if_neg hcol] at hc ⊢
        have hp : (fun x => decide (x.position ≥ d)) (sampleAt policy dt (k + 1)) = false := by
          simpa [sampleAt] using hcol
        have hrest := ih (k + 1) hc
        simp only [List.find?_cons, hp, List.length_cons]
        rw [hrest]
        have harith : k + 1 + ((simLoop policy d dt mt n (tAt dt (k + 1))
            (stateAt policy dt (k + 1)).1 (stateAt policy dt (k + 1)).2).1).length
            = k + (((simLoop policy d dt mt n (tAt dt (k + 1))
            (stateAt policy dt (k + 1)).1 (stateAt policy dt (k + 1)).2).1).length + 1) := by
          omega
        rw [harith]
    · rw [if_neg hg] at hc
      simp at hc

theorem simLoop_getLast? (policy : ℚ → ℚ → ℚ) (d dt mt : ℚ) :
    ∀ (fuel k : Nat),
      (simLoop policy d dt mt fuel (tAt dt k)
        (stateAt policy dt k).1 (stateAt policy dt k).2).2 = true →
      ((simLoop policy d dt mt fuel (tAt dt k)
        (stateAt policy dt k).1 (stateAt policy dt k).2).1).getLast?
        = some (sampleAt policy dt (k + ((simLoop policy d dt mt fuel (tAt dt k)
            (stateAt policy dt k).1 (stateAt policy dt k).2).1).length)) := by
  intro fuel
  induction fuel with
  | zero => intro k hc; simp [simLoop] at hc
  | succ n ih =>
    intro k hc
    rw [simLoop_succ_state] at hc ⊢
    by_cases hg : tAt dt k < mt
    · rw [if_pos hg] at hc ⊢
      by_cases hcol : (stateAt policy dt (k + 1)).2 ≥ d
      · rw [if_pos hcol]
        simp
      · rw [if_neg hcol] at hc ⊢
        have hrest := ih (k + 1) hc
        rcases hrl : (simLoop policy d dt mt n (tAt dt (k + 1))
            (stateAt policy dt (k + 1)).1 (stateAt policy dt (k + 1)).2).1 with _ | ⟨a, as⟩
        · rw [hrl] at hrest
          simp at hrest
        · rw [hrl] at hrest
          simp only [List.getLast?_cons_cons, List.length_cons]
          rw [hrest]
          congr 2
          simp
          omega
    · rw [if_neg hg] at hc
      simp at hc

theorem simulate_col (policy : ℚ → ℚ → ℚ) (d dt mt : ℚ) (fuel : Nat)
    (hc : (simulate policy d dt mt fuel).2 = true) :
    2 ≤ ((simulate policy d dt mt fuel).1).length ∧
    d ≤ (stateAt policy dt (((simulate policy d dt mt fuel).1).length - 1)).2 ∧
    (∀ i, 1 ≤ i → i < ((simulate policy d dt mt fuel).1).length - 1 →
      (stateAt policy dt i).2 < d) := by
  have hc' : (simLoop policy d dt mt fuel (tAt dt 0)
      (stateAt policy dt 0).1 (stateAt policy dt 0).2).2 = true := hc
  obtain ⟨h1, h2, h3⟩ := simLoop_col policy d dt mt fuel 0 hc'
  have hlen : ((simulate policy d dt mt fuel).1).length
      = ((simLoop policy d dt mt fuel (tAt dt 0)
          (stateAt policy dt 0).1 (stateAt policy dt 0).2).1).length + 1 := rfl
  rw [hlen]
  simp only [Nat.add_sub_cancel]
  refine ⟨by omega, by simpa using h2, ?_⟩
  intro i hi1 hi2
  simpa using h3 i hi1 hi2

theorem simulate_find? (policy : ℚ → ℚ → ℚ) (d dt mt : ℚ) (fuel : Nat)
    (hd : 0 < d) (hc : (simulate policy d dt mt fuel).2 = true) :
    ((simulate policy d dt mt fuel).1).find? (fun x => decide (x.position ≥ d))
      = some (sampleAt policy dt (((simulate policy d dt mt fuel).1).length - 1)) := by
  have hc' : (simLoop policy d dt mt fuel (tAt dt 0)
      (stateAt policy dt 0).1 (stateAt policy dt 0).2).2 = true := hc
  have hf := simLoop_find? policy d dt mt fuel 0 hc'
  have hlen : ((simulate policy d dt mt fuel).1).length
      = ((simLoop policy d dt mt fuel (tAt dt 0)
          (stateAt policy dt 0).1 (stateAt policy dt 0).2).1).length + 1 := rfl
  have hstep : ((simulate policy d dt mt fuel).1).find? (fun x => decide (x.position ≥ d))
      = ((simLoop policy d dt mt fuel (tAt dt 0)
          (stateAt policy dt 0).1 (stateAt policy dt 0).2).1).find?
          (fun x => decide (x.position ≥ d)) := by
    show (({ time := 0, velocity := 0, position := 0 } : Sample)
        :: (simLoop policy d dt mt fuel (tAt dt 0)
          (stateAt policy dt 0).1 (stateAt policy dt 0).2).1).find?
          (fun x => decide (x.position ≥ d)) = _
    rw [List.find?_cons]
    have hp : decide ((({ time := 0, velocity := 0, position := 0 } : Sample)).position ≥ d)
        = false := by
      simp only [decide_eq_false_iff_not]
      exact fun h => not_le.mpr hd h
    rw [hp]
  rw [hstep, hf, hlen]
  simp

theorem simulate_getLast? (policy : ℚ → ℚ → ℚ) (d dt mt : ℚ) (fuel : Nat)
    (hc : (simulate policy d dt mt fuel).2 = true) :
    ((simulate policy d dt mt fuel).1).getLast?
      = some (sampleAt policy dt (((simulate policy d dt mt fuel).1).length - 1)) := by
  have hc' : (simLoop policy d dt mt fuel (tAt dt 0)
      (stateAt policy dt 0).1 (stateAt policy dt 0).2).2 = true := hc
  have hl := simLoop_getLast? policy d dt mt fuel 0 hc'
  obtain ⟨h1, -, -⟩ := simLoop_col policy d dt mt fuel 0 hc'
  have hlen : ((simulate policy d dt mt fuel).1).length
      = ((simLoop policy d dt mt fuel (tAt dt 0)
          (stateAt policy dt 0).1 (stateAt policy dt 0).2).1).length + 1 := rfl
  rcases hrl : (simLoop policy d dt mt fuel (tAt dt 0)
      (stateAt policy dt 0).1 (stateAt policy dt 0).2).1 with _ | ⟨a, as⟩
  · rw [hrl] at h1
    simp at h1
  · rw [hrl] at hl
    have hshow : ((simulate policy d dt mt fuel).1).getLast?
        = (a :: as).getLast? := by
      show (({ time := 0, velocity := 0, position := 0 } : Sample)
          :: (simLoop policy d dt mt fuel (tAt dt 0)
            (stateAt policy dt 0).1 (stateAt policy dt 0).2).1).getLast? = _
      rw [hrl]
      exact List.getLast?_cons_cons
    rw [hshow, hl, hlen, hrl]
    simp

theorem noAcpe_velocity_mono (accel dt : ℚ) (hacc : 0 ≤ accel) (hdt : 0 ≤ dt) :
    ∀ j k : Nat, j ≤ k →
      (stateAt (noAcpePolicy accel) dt j).1 ≤ (stateAt (noAcpePolicy accel) dt k).1 := by
  intro j k hjk
  induction k with
  | zero =>
    have : j = 0 := by omega
    simp [this]
  | succ n ih =>
    rcases Nat.lt_or_ge j (n + 1) with h | h
    · refine le_trans (ih (by omega)) ?_
      rw [stateAt_succ_velocity]
      simp only [noAcpePolicy]
      calc (stateAt (noAcpePolicy accel) dt n).1
          ≤ (stateAt (noAcpePolicy accel) dt n).1 + accel * dt := by nlinarith
        _ ≤ max 0 ((stateAt (noAcpePolicy accel) dt n).1 + accel * dt) := le_max_right _ _
    · have : j = n + 1 := by omega
      simp [this]

theorem acpe_velocity_step_le (delay brake accel dt : ℚ)
    (hbrake : brake ≤ 0) (hdt : 0 ≤ dt) (k : Nat)
    (hk : ¬ tAt dt (k + 1) < delay) :
    (stateAt (acpePolicy delay brake accel) dt (k + 1)).1
      ≤ (stateAt (acpePolicy delay brake accel) dt k).1 := by
  rw [stateAt_succ_velocity]
  have hv : 0 ≤ (stateAt (acpePolicy delay brake accel) dt k).1 :=
    stateAt_velocity_nonneg _ _ _
  have ha : acpePolicy delay brake accel (tAt dt (k + 1))
      (stateAt (acpePolicy delay brake accel) dt k).1 ≤ 0 := by
    unfold acpePolicy
    rw [if_neg hk]
    split_ifs with h
    · exact hbrake
    · exact le_refl 0
  apply max_le hv
  nlinarith

theorem acpe_velocity_le_of_after (delay brake accel dt : ℚ)
    (hbrake : brake ≤ 0) (hdt : 0 ≤ dt) :
    ∀ j k : Nat, j ≤ k → (∀ i, j < i → i ≤ k → ¬ tAt dt i < delay) →
      (stateAt (acpePolicy delay brake accel) dt k).1
        ≤ (stateAt (acpePolicy delay brake accel) dt j).1 := by
  intro j k hjk hall
  induction k with
  | zero =>
    have : j = 0 := by omega
    simp [this]
  | succ n ih =>
    rcases Nat.lt_or_ge j (n + 1) with h | h
    · refine le_trans ?_ (ih (by omega) (fun i h1 h2 => hall i h1 (by omega)))
      exact acpe_velocity_step_le delay brake accel dt hbrake hdt n
        (hall (n + 1) (by omega) (le_refl _))
    · have : j = n + 1 := by omega
      simp [this]

theorem states_eq_before (delay brake accel dt : ℚ) :
    ∀ k : Nat, (∀ i, 1 ≤ i → i ≤ k → tAt dt i < delay) →
      stateAt (acpePolicy delay brake accel) dt k
        = stateAt (noAcpePolicy accel) dt k := by
  intro k
  induction k with
  | zero => intro _; rfl
  | succ n ih =>
    intro h
    have he := ih (fun i h1 h2 => h i h1 (by omega))
    have ht : tAt dt n + dt < delay := by
      have := h (n + 1) (by omega) (le_refl _)
      simpa [tAt] using this
    simp only [stateAt]
    rw [he]
    simp [acpePolicy, noAcpePolicy, ht]

theorem state_le (delay brake accel dt : ℚ)
    (hacc : 0 ≤ accel) (hbrake : brake ≤ 0) (hdt : 0 ≤ dt) :
    ∀ k : Nat,
      (stateAt (acpePolicy delay brake accel) dt k).1
        ≤ (stateAt (noAcpePolicy accel) dt k).1 ∧
      (stateAt (acpePolicy delay brake accel) dt k).2
        ≤ (stateAt (noAcpePolicy accel) dt k).2 := by
  intro k
  induction k with
  | zero => exact ⟨le_refl 0, le_refl 0⟩
  | succ n ih =>
    obtain ⟨hv, hs⟩ := ih
    have haW : acpePolicy delay brake accel (tAt dt (n + 1))
        (stateAt (acpePolicy delay brake accel) dt n).1 ≤ accel := by
      unfold acpePolicy
      split_ifs with h1 h2
      · exact le_refl accel
      · exact le_trans hbrake hacc
      · exact hacc
    have hvel : (stateAt (acpePolicy delay brake accel) dt (n + 1)).1
        ≤ (stateAt (noAcpePolicy accel) dt (n + 1)).1 := by
      rw [stateAt_succ_velocity, stateAt_succ_velocity]
      simp only [noAcpePolicy]
      refine max_le_max (le_refl 0) ?_
      have : acpePolicy delay brake accel (tAt dt (n + 1))
          (stateAt (acpePolicy delay brake accel) dt n).1 * dt ≤ accel * dt :=
        mul_le_mul_of_nonneg_right haW hdt
      linarith
    refine ⟨hvel, ?_⟩
    rw [stateAt_succ_position, stateAt_succ_position]
    have : (stateAt (acpePolicy delay brake accel) dt (n + 1)).1 * dt
        ≤ (stateAt (noAcpePolicy accel) dt (n + 1)).1 * dt :=
      mul_le_mul_of_nonneg_right hvel hdt
    linarith

theorem simLoop_policy_agree (p1 p2 : ℚ → ℚ → ℚ) (c d dt mt : ℚ)
    (hagree : ∀ t v, t < c → p1 t v = p2 t v) :
    ∀ (fuel : Nat) (t v s : ℚ),
      (simLoop p2 d dt mt fuel t v s).2 = true →
      (∀ x ∈ (simLoop p2 d dt mt fuel t v s).1, x.time < c) →
      simLoop p1 d dt mt fuel t v s = simLoop p2 d dt mt fuel t v s := by
  intro fuel
  induction fuel with
  | zero => intro t v s hc _; simp [simLoop] at hc
  | succ n ih =>
    intro t v s hc hmem
    simp only [simLoop] at hc hmem ⊢
    by_cases hg : t < mt
    · rw [if_pos hg] at hc hmem ⊢
      by_cases hcol : s + max 0 (v + p2 (t + dt) v * dt) * dt ≥ d
      · rw [if_pos hcol] at hc hmem
        have ht : t + dt < c := by
          have := hmem ⟨t + dt, max 0 (v + p2 (t + dt) v * dt),
            s + max 0 (v + p2 (t + dt) v * dt) * dt⟩ (by simp)
          simpa using this
        rw [hagree (t + dt) v ht]
        rw [if_pos hcol, if_pos hg, if_pos hcol]
      · rw [if_neg hcol] at hc hmem
        have ht : t + dt < c := by
          have := hmem ⟨t + dt, max 0 (v + p2 (t + dt) v * dt),
            s + max 0 (v + p2 (t + dt) v * dt) * dt⟩ (by simp)
          simpa using this
        rw [hagree (t + dt) v ht]
        rw [if_neg hcol, if_neg hcol]
        have hc' : (simLoop p2 d dt mt n (t + dt) (max 0 (v + p2 (t + dt) v * dt))
            (s + max 0 (v + p2 (t + dt) v * dt) * dt)).2 = true := by
          simpa using hc
        have hmem' : ∀ x ∈ (simLoop p2 d dt mt n (t + dt) (max 0 (v + p2 (t + dt) v * dt))
            (s + max 0 (v + p2 (t + dt) v * dt) * dt)).1, x.time < c := by
          intro x hx
          exact hmem x (List.mem_cons_of_mem _ hx)
        rw [ih (t + dt) (max 0 (v + p2 (t + dt) v * dt))
          (s + max 0 (v + p2 (t + dt) v * dt) * dt) hc' hmem']
        rw [if_pos hg]
    · rw [if_neg hg] at hc
      simp at hc

theorem noAcpe_state_closed (accel dt : ℚ) (hacc : 0 ≤ accel) (hdt : 0 ≤ dt) :
    ∀ k : Nat, (stateAt (noAcpePolicy accel) dt k).1 = accel * k * dt ∧
      (stateAt (noAcpePolicy accel) dt k).2 = accel * dt ^ 2 * (k * (k + 1)) / 2 := by
  intro k
  induction k with
  | zero => norm_num [stateAt]
  | succ n ih =>
    obtain ⟨hv, hs⟩ := ih
    have hvs : (stateAt (noAcpePolicy accel) dt (n + 1)).1 = accel * (n + 1 : Nat) * dt := by
      rw [stateAt_succ_velocity, hv]
      simp only [noAcpePolicy]
      have hnn : 0 ≤ accel * (n : ℚ) * dt + accel * dt := by
        have h1 : 0 ≤ accel * (n : ℚ) * dt := by positivity
        have h2 : 0 ≤ accel * dt := by positivity
        linarith
      rw [max_eq_right hnn]
      push_cast
      ring
    refine ⟨hvs, ?_⟩
    rw [stateAt_succ_position, hs, hvs]
    push_cast
    ring

theorem acpe_zero_delay_stuck (brake accel d : ℚ) (hd : 0 < d) :
    ∀ (fuel : Nat) (t : ℚ), 0 ≤ t →
      (simLoop (acpePolicy 0 brake accel) d (1/100) 10 fuel t 0 0).2 = false := by
  intro fuel
  induction fuel with
  | zero => intro t ht; simp [simLoop]
  | succ n ih =>
    intro t ht
    simp only [simLoop]
    by_cases hg : t < 10
    · rw [if_pos hg]
      have hpol : acpePolicy 0 brake accel (t + 1/100) 0 = 0 := by
        unfold acpePolicy
        rw [if_neg (by linarith)]
        simp
      rw [hpol]
      have hv : max 0 ((0:ℚ) + 0 * (1/100)) = 0 := by norm_num
      rw [hv]
      have hs : (0:ℚ) + 0 * (1/100) = 0 := by norm_num
      rw [hs]
      rw [if_neg (by simpa using hd.not_le)]
      simpa using ih (t + 1/100) (by linarith)
    · rw [if_neg hg]

theorem stateAt_one (policy : ℚ → ℚ → ℚ) (dt : ℚ) :
    stateAt policy dt 1 = (max 0 (policy dt 0 * dt), max 0 (policy dt 0 * dt) * dt) := by
  simp [stateAt, tAt]

theorem sampleAt_one (policy : ℚ → ℚ → ℚ) (dt : ℚ) :
    sampleAt policy dt 1
      = ⟨dt, max 0 (policy dt 0 * dt), max 0 (policy dt 0 * dt) * dt⟩ := by
  simp [sampleAt, stateAt_one, tAt]

theorem stateAt_one_position_nonneg (policy : ℚ → ℚ → ℚ) (dt : ℚ) (hdt : 0 ≤ dt) :
    0 ≤ (stateAt policy dt 1).2 := by
  rw [stateAt_one]
  show 0 ≤ max 0 (policy dt 0 * dt) * dt
  exact mul_nonneg (le_max_left _ _) hdt

theorem simulate_one_step (policy : ℚ → ℚ → ℚ) (d : ℚ)
    (h1 : d ≤ (stateAt policy (1/100) 1).2) :
    (simulate policy d (1/100) 10 1001).2 = true ∧
    (simulate policy d (1/100) 10 1001).1
      = [⟨0, 0, 0⟩, sampleAt policy (1/100) 1] := by
  obtain ⟨hcol, hlen⟩ := simLoop_col_complete policy d 1001 0 1
    (by omega) (by omega) (by omega) h1
  have hcol' : (simulate policy d (1/100) 10 1001).2 = true := hcol
  refine ⟨hcol', ?_⟩
  obtain ⟨hge, -, -⟩ := simLoop_col policy d (1/100) 10 1001 0 hcol
  have hlen1 : ((simLoop policy d (1/100) 10 1001 (tAt (1/100) 0)
      (stateAt policy (1/100) 0).1 (stateAt policy (1/100) 0).2).1).length = 1 := by
    omega
  obtain ⟨a, ha⟩ := List.length_eq_one.mp hlen1
  have ha0 := simLoop_get? policy d (1/100) 10 1001 0 0 (by omega)
  rw [ha] at ha0
  simp at ha0
  have hshow : (simulate policy d (1/100) 10 1001).1
      = ({ time := 0, velocity := 0, position := 0 } : Sample)
        :: (simLoop policy d (1/100) 10 1001 (tAt (1/100) 0)
          (stateAt policy (1/100) 0).1 (stateAt policy (1/100) 0).2).1 := rfl
  rw [hshow, ha, ha0]
  norm_num

theorem wrunA_spec : (simulate_with_acpe (1/10000) (3/5) (-8) 3).2 = true ∧
    (simulate_with_acpe (1/10000) (3/5) (-8) 3).1
      = [⟨0, 0, 0⟩, ⟨1/100, 3/100, 3/10000⟩] := by
  have hp : acpePolicy (3/5) (-8) 3 (1/100) 0 = 3 := by norm_num [acpePolicy]
  have h1 : (1:ℚ)/10000 ≤ (stateAt (acpePolicy (3/5) (-8) 3) (1/100) 1).2 := by
    rw [stateAt_one]
    show (1:ℚ)/10000 ≤ max 0 (acpePolicy (3/5) (-8) 3 (1/100) 0 * (1/100)) * (1/100)
    rw [hp, max_eq_right (by norm_num : (0:ℚ) ≤ 3 * (1/100))]
    norm_num
  have hmain := simulate_one_step (acpePolicy (3/5) (-8) 3) (1/10000) h1
  refine ⟨hmain.1, ?_⟩
  have hl : (simulate_with_acpe (1/10000) (3/5) (-8) 3).1
      = [⟨0, 0, 0⟩, sampleAt (acpePolicy (3/5) (-8) 3) (1/100) 1] := hmain.2
  rw [hl, sampleAt_one, hp, max_eq_right (by norm_num : (0:ℚ) ≤ 3 * (1/100))]
  norm_num

theorem nrunA_spec : (simulate_no_acpe (1/10000) 3).2 = true ∧
    (simulate_no_acpe (1/10000) 3).1
      = [⟨0, 0, 0⟩, ⟨1/100, 3/100, 3/10000⟩] := by
  have hp : noAcpePolicy 3 (1/100) 0 = 3 := rfl
  have h1 : (1:ℚ)/10000 ≤ (stateAt (noAcpePolicy 3) (1/100) 1).2 := by
    rw [stateAt_one]
    show (1:ℚ)/10000 ≤ max 0 (noAcpePolicy 3 (1/100) 0 * (1/100)) * (1/100)
    rw [hp, max_eq_right (by norm_num : (0:ℚ) ≤ 3 * (1/100))]
    norm_num
  have hmain := simulate_one_step (noAcpePolicy 3) (1/10000) h1
  refine ⟨hmain.1, ?_⟩
  have hl : (simulate_no_acpe (1/10000) 3).1
      = [⟨0, 0, 0⟩, sampleAt (noAcpePolicy 3) (1/100) 1] := hmain.2
  rw [hl, sampleAt_one, hp, max_eq_right (by norm_num : (0:ℚ) ≤ 3 * (1/100))]
  norm_num

theorem wrunA_len : ((simulate_with_acpe (1/10000) (3/5) (-8) 3).1).length = 2 := by
  rw [wrunA_spec.2]
  rfl

theorem nrunA_len : ((simulate_no_acpe (1/10000) 3).1).length = 2 := by
  rw [nrunA_spec.2]
  rfl

/-- C7: for every parameter set and every sample of either scenario's
trajectory, the sample's velocity is greater than or equal to 0. -/
theorem claim_C7_velocity_floor (d delay_s brake_decel accel : ℚ) (i : Nat) :
    (∀ hiW : i < ((simulate_with_acpe d delay_s brake_decel accel).1).length,
      0 ≤ (((simulate_with_acpe d delay_s brake_decel accel).1).get ⟨i, hiW⟩).velocity) ∧
    (∀ hiN : i < ((simulate_no_acpe d accel).1).length,
      0 ≤ (((simulate_no_acpe d accel).1).get ⟨i, hiN⟩).velocity) := by
  constructor
  · intro hiW
    have hg := simulate_get (acpePolicy delay_s brake_decel accel) d (1/100) 10 1001 i hiW
    rw [show ((simulate_with_acpe d delay_s brake_decel accel).1).get ⟨i, hiW⟩
      = ((simulate (acpePolicy delay_s brake_decel accel) d (1/100) 10 1001).1).get
        ⟨i, hiW⟩ from rfl, hg]
    exact stateAt_velocity_nonneg _ _ _
  · intro hiN
    have hg := simulate_get (noAcpePolicy accel) d (1/100) 10 1001 i hiN
    rw [show ((simulate_no_acpe d accel).1).get ⟨i, hiN⟩
      = ((simulate (noAcpePolicy accel) d (1/100) 10 1001).1).get ⟨i, hiN⟩ from rfl, hg]
    exact stateAt_velocity_nonneg _ _ _

/-- Witness for C7 at a concrete input. -/
theorem claim_C7_witness :
    (1 < ((simulate_with_acpe (1/10000) (3/5) (-8) 3).1).length) ∧
    0 ≤ (((simulate_with_acpe (1/10000) (3/5) (-8) 3).1).get
      ⟨1, by rw [wrunA_len]; omega⟩).velocity ∧
    0 ≤ (((simulate_no_acpe (1/10000) 3).1).get
      ⟨1, by rw [nrunA_len]; omega⟩).velocity :=
  ⟨by rw [wrunA_len]; omega,
    (claim_C7_velocity_floor (1/10000) (3/5) (-8) 3 1).1 (by rw [wrunA_len]; omega),
    (claim_C7_velocity_floor (1/10000) (3/5) (-8) 3 1).2 (by rw [nrunA_len]; omega)⟩

/-- C8: for every parameter set, positions are non-decreasing sample-to-sample
in both scenarios' trajectories. -/
theorem claim_C8_position_monotone (d delay_s brake_decel accel : ℚ) (i : Nat) :
    (∀ hiW : i + 1 < ((simulate_with_acpe d delay_s brake_decel accel).1).length,
      (((simulate_with_acpe d delay_s brake_decel accel).1).get
          ⟨i, Nat.lt_of_succ_lt hiW⟩).position
        ≤ (((simulate_with_acpe d delay_s brake_decel accel).1).get ⟨i + 1, hiW⟩).position) ∧
    (∀ hiN : i + 1 < ((simulate_no_acpe d accel).1).length,
      (((simulate_no_acpe d accel).1).get ⟨i, Nat.lt_of_succ_lt hiN⟩).position
        ≤ (((simulate_no_acpe d accel).1).get ⟨i + 1, hiN⟩).position) := by
  constructor
  · intro hiW
    have hg1 := simulate_get (acpePolicy delay_s brake_decel accel) d (1/100) 10 1001 i
      (Nat.lt_of_succ_lt hiW)
    have hg2 := simulate_get (acpePolicy delay_s brake_decel accel) d (1/100) 10 1001 (i + 1) hiW
    rw [show (((simulate_with_acpe d delay_s brake_decel accel).1).get
        ⟨i, Nat.lt_of_succ_lt hiW⟩)
      = ((simulate (acpePolicy delay_s brake_decel accel) d (1/100) 10 1001).1).get
        ⟨i, Nat.lt_of_succ_lt hiW⟩ from rfl, hg1]
    rw [show (((simulate_with_acpe d delay_s brake_decel accel).1).get ⟨i + 1, hiW⟩)
      = ((simulate (acpePolicy delay_s brake_decel accel) d (1/100) 10 1001).1).get
        ⟨i + 1, hiW⟩ from rfl, hg2]
    exact stateAt_position_mono _ _ (by norm_num) i (i + 1) (by omega)
  · intro hiN
    have hg1 := simulate_get (noAcpePolicy accel) d (1/100) 10 1001 i (Nat.lt_of_succ_lt hiN)
    have hg2 := simulate_get (noAcpePolicy accel) d (1/100) 10 1001 (i + 1) hiN
    rw [show (((simulate_no_acpe d accel).1).get ⟨i, Nat.lt_of_succ_lt hiN⟩)
      = ((simulate (noAcpePolicy accel) d (1/100) 10 1001).1).get
        ⟨i, Nat.lt_of_succ_lt hiN⟩ from rfl, hg1]
    rw [show (((simulate_no_acpe d accel).1).get ⟨i + 1, hiN⟩)
      = ((simulate (noAcpePolicy accel) d (1/100) 10 1001).1).get ⟨i + 1, hiN⟩ from rfl, hg2]
    exact stateAt_position_mono _ _ (by norm_num) i (i + 1) (by omega)

/-- Witness for C8 at a concrete input. -/
theorem claim_C8_witness :
    (0 + 1 < ((simulate_with_acpe (1/10000) (3/5) (-8) 3).1).length) ∧
    (((simulate_with_acpe (1/10000) (3/5) (-8) 3).1).get
        ⟨0, by rw [wrunA_len]; omega⟩).position
      ≤ (((simulate_with_acpe (1/10000) (3/5) (-8) 3).1).get
        ⟨0 + 1, by rw [wrunA_len]; omega⟩).position ∧
    (((simulate_no_acpe (1/10000) 3).1).get ⟨0, by rw [nrunA_len]; omega⟩).position
      ≤ (((simulate_no_acpe (1/10000) 3).1).get
        ⟨0 + 1, by rw [nrunA_len]; omega⟩).position :=
  ⟨by rw [wrunA_len]; omega,
    (claim_C8_position_monotone (1/10000) (3/5) (-8) 3 0).1 (by rw [wrunA_len]; omega),
    (claim_C8_position_monotone (1/10000) (3/5) (-8) 3 0).2 (by rw [nrunA_len]; omega)⟩

theorem exact_step_bound (d delay_s brake_decel accel : ℚ) :
    ((simulate_with_acpe d delay_s brake_decel accel).1).length - 1 ≤ 1000 ∧
    ((simulate_no_acpe d accel).1).length - 1 ≤ 1000 := by
  constructor
  · have h : ((simulate_with_acpe d delay_s brake_decel accel).1).length ≤ 1001 :=
      simulate_length (acpePolicy delay_s brake_decel accel) d
    omega
  · have h : ((simulate_no_acpe d accel).1).length ≤ 1001 :=
      simulate_length (noAcpePolicy accel) d
    omega

/-- C9: the no-ACPE trajectory, outcome and extracted speed are unchanged when
only the reaction delay and the brake deceleration vary. -/
theorem claim_C9_no_acpe_independent (d accel delay_ms1 delay_ms2 brake1 brake2 : ℚ) :
    (run_comparison d delay_ms1 brake1 accel).no_acpe
      = (run_comparison d delay_ms2 brake2 accel).no_acpe ∧
    (run_comparison d delay_ms1 brake1 accel).no_acpe_speed_kph
      = (run_comparison d delay_ms2 brake2 accel).no_acpe_speed_kph :=
  ⟨rfl, rfl⟩

/-- C1: in every step of both scenarios the new velocity is
`max 0 (previous velocity + a * dt)` with `a` the policy's acceleration
queried at the new time and the previous velocity, and the new position is
`previous position + new velocity * dt` (semi-implicit Euler). -/
theorem claim_C1_update_equations (d delay_s brake_decel accel : ℚ) (i : Nat) :
    (∀ hiW : i + 1 < ((simulate_with_acpe d delay_s brake_decel accel).1).length,
      (((simulate_with_acpe d delay_s brake_decel accel).1).get ⟨i + 1, hiW⟩).velocity
        = max 0 ((((simulate_with_acpe d delay_s brake_decel accel).1).get
              ⟨i, Nat.lt_of_succ_lt hiW⟩).velocity
            + acpePolicy delay_s brake_decel accel
              ((((simulate_with_acpe d delay_s brake_decel accel).1).get ⟨i + 1, hiW⟩).time)
              ((((simulate_with_acpe d delay_s brake_decel accel).1).get
                ⟨i, Nat.lt_of_succ_lt hiW⟩).velocity) * (1/100)) ∧
      (((simulate_with_acpe d delay_s brake_decel accel).1).get ⟨i + 1, hiW⟩).position
        = (((simulate_with_acpe d delay_s brake_decel accel).1).get
              ⟨i, Nat.lt_of_succ_lt hiW⟩).position
          + (((simulate_with_acpe d delay_s brake_decel accel).1).get
              ⟨i + 1, hiW⟩).velocity * (1/100)) ∧
    (∀ hiN : i + 1 < ((simulate_no_acpe d accel).1).length,
      (((simulate_no_acpe d accel).1).get ⟨i + 1, hiN⟩).velocity
        = max 0 ((((simulate_no_acpe d accel).1).get ⟨i, Nat.lt_of_succ_lt hiN⟩).velocity
            + noAcpePolicy accel
              ((((simulate_no_acpe d accel).1).get ⟨i + 1, hiN⟩).time)
              ((((simulate_no_acpe d accel).1).get
                ⟨i, Nat.lt_of_succ_lt hiN⟩).velocity) * (1/100)) ∧
      (((simulate_no_acpe d accel).1).get ⟨i + 1, hiN⟩).position
        = (((simulate_no_acpe d accel).1).get ⟨i, Nat.lt_of_succ_lt hiN⟩).position
          + (((simulate_no_acpe d accel).1).get ⟨i + 1, hiN⟩).velocity * (1/100)) := by
  constructor
  · intro hiW
    have hg1 := simulate_get (acpePolicy delay_s brake_decel accel) d (1/100) 10 1001 i
      (Nat.lt_of_succ_lt hiW)
    have hg2 := simulate_get (acpePolicy delay_s brake_decel accel) d (1/100) 10 1001 (i + 1) hiW
    rw [show (((simulate_with_acpe d delay_s brake_decel accel).1).get
        ⟨i, Nat.lt_of_succ_lt hiW⟩)
      = ((simulate (acpePolicy delay_s brake_decel accel) d (1/100) 10 1001).1).get
        ⟨i, Nat.lt_of_succ_lt hiW⟩ from rfl, hg1]
    rw [show (((simulate_with_acpe d delay_s brake_decel accel).1).get ⟨i + 1, hiW⟩)
      = ((simulate (acpePolicy delay_s brake_decel accel) d (1/100) 10 1001).1).get
        ⟨i + 1, hiW⟩ from rfl, hg2]
    exact ⟨stateAt_succ_velocity _ _ i, stateAt_succ_position _ _ i⟩
  · intro hiN
    have hg1 := simulate_get (noAcpePolicy accel) d (1/100) 10 1001 i (Nat.lt_of_succ_lt hiN)
    have hg2 := simulate_get (noAcpePolicy accel) d (1/100) 10 1001 (i + 1) hiN
    rw [show (((simulate_no_acpe d accel).1).get ⟨i, Nat.lt_of_succ_lt hiN⟩)
      = ((simulate (noAcpePolicy accel) d (1/100) 10 1001).1).get
        ⟨i, Nat.lt_of_succ_lt hiN⟩ from rfl, hg1]
    rw [show (((simulate_no_acpe d accel).1).get ⟨i + 1, hiN⟩)
      = ((simulate (noAcpePolicy accel) d (1/100) 10 1001).1).get ⟨i + 1, hiN⟩ from rfl, hg2]
    exact ⟨stateAt_succ_velocity _ _ i, stateAt_succ_position _ _ i⟩

/-- Witness for C1 at a concrete input. -/
theorem claim_C1_witness :
    (0 + 1 < ((simulate_with_acpe (1/10000) (3/5) (-8) 3).1).length) ∧
    ((((simulate_with_acpe (1/10000) (3/5) (-8) 3).1).get
        ⟨0 + 1, by rw [wrunA_len]; omega⟩).velocity
      = max 0 ((((simulate_with_acpe (1/10000) (3/5) (-8) 3).1).get
            ⟨0, by rw [wrunA_len]; omega⟩).velocity
          + acpePolicy (3/5) (-8) 3
            ((((simulate_with_acpe (1/10000) (3/5) (-8) 3).1).get
              ⟨0 + 1, by rw [wrunA_len]; omega⟩).time)
            ((((simulate_with_acpe (1/10000) (3/5) (-8) 3).1).get
              ⟨0, by rw [wrunA_len]; omega⟩).velocity) * (1/100)) ∧
      (((simulate_with_acpe (1/10000) (3/5) (-8) 3).1).get
          ⟨0 + 1, by rw [wrunA_len]; omega⟩).position
        = (((simulate_with_acpe (1/10000) (3/5) (-8) 3).1).get
            ⟨0, by rw [wrunA_len]; omega⟩).position
          + (((simulate_with_acpe (1/10000) (3/5) (-8) 3).1).get
            ⟨0 + 1, by rw [wrunA_len]; omega⟩).velocity * (1/100)) ∧
    ((((simulate_no_acpe (1/10000) 3).1).get ⟨0 + 1, by rw [nrunA_len]; omega⟩).velocity
      = max 0 ((((simulate_no_acpe (1/10000) 3).1).get
            ⟨0, by rw [nrunA_len]; omega⟩).velocity
          + noAcpePolicy 3
            ((((simulate_no_acpe (1/10000) 3).1).get
              ⟨0 + 1, by rw [nrunA_len]; omega⟩).time)
            ((((simulate_no_acpe (1/10000) 3).1).get
              ⟨0, by rw [nrunA_len]; omega⟩).velocity) * (1/100)) ∧
      (((simulate_no_acpe (1/10000) 3).1).get ⟨0 + 1, by rw [nrunA_len]; omega⟩).position
        = (((simulate_no_acpe (1/10000) 3).1).get ⟨0, by rw [nrunA_len]; omega⟩).position
          + (((simulate_no_acpe (1/10000) 3).1).get
            ⟨0 + 1, by rw [nrunA_len]; omega⟩).velocity * (1/100)) :=
  ⟨by rw [wrunA_len]; omega,
    (claim_C1_update_equations (1/10000) (3/5) (-8) 3 0).1 (by rw [wrunA_len]; omega),
    (claim_C1_update_equations (1/10000) (3/5) (-8) 3 0).2 (by rw [nrunA_len]; omega)⟩

/-- C5: with obstacle distance 0 both runs flag a collision at the first
appended sample (time = time step = 1/100), for any acceleration including 0;
and for every obstacle distance, a flagged collision happens at an appended
sample (the trajectory then has at least two samples), never at the initial
`(0, 0, 0)` sample. -/
theorem claim_C5_immediate_obstacle (d delay_s brake_decel accel : ℚ) :
    (d = 0 →
      (simulate_with_acpe d delay_s brake_decel accel).2 = true ∧
      ((simulate_with_acpe d delay_s brake_decel accel).1).length = 2 ∧
      (((simulate_with_acpe d delay_s brake_decel accel).1).getLast?).map Sample.time
        = some (1/100) ∧
      (simulate_no_acpe d accel).2 = true ∧
      ((simulate_no_acpe d accel).1).length = 2 ∧
      (((simulate_no_acpe d accel).1).getLast?).map Sample.time = some (1/100)) ∧
    ((simulate_with_acpe d delay_s brake_decel accel).2 = true →
      2 ≤ ((simulate_with_acpe d delay_s brake_decel accel).1).length) ∧
    ((simulate_no_acpe d accel).2 = true →
      2 ≤ ((simulate_no_acpe d accel).1).length) := by
  refine ⟨?_, ?_, ?_⟩
  · intro hd
    subst hd
    have hW := simulate_one_step (acpePolicy delay_s brake_decel accel) 0
      (stateAt_one_position_nonneg _ _ (by norm_num))
    have hN := simulate_one_step (noAcpePolicy accel) 0
      (stateAt_one_position_nonneg _ _ (by norm_num))
    have hlW : (simulate_with_acpe 0 delay_s brake_decel accel).1
        = [⟨0, 0, 0⟩, sampleAt (acpePolicy delay_s brake_decel accel) (1/100) 1] := hW.2
    have hlN : (simulate_no_acpe 0 accel).1
        = [⟨0, 0, 0⟩, sampleAt (noAcpePolicy accel) (1/100) 1] := hN.2
    refine ⟨hW.1, by rw [hlW]; rfl, ?_, hN.1, by rw [hlN]; rfl, ?_⟩
    · rw [hlW]
      simp [sampleAt, tAt]
    · rw [hlN]
      simp [sampleAt, tAt]
  · intro hc
    have h := simulate_col (acpePolicy delay_s brake_decel accel) d (1/100) 10 1001 hc
    exact h.1
  · intro hc
    have h := simulate_col (noAcpePolicy accel) d (1/100) 10 1001 hc
    exact h.1

/-- Witness for C5 at a concrete input. -/
theorem claim_C5_witness :
    ((0:ℚ) = 0) ∧
    ((simulate_with_acpe 0 (3/5) (-8) 3).2 = true ∧
      ((simulate_with_acpe 0 (3/5) (-8) 3).1).length = 2 ∧
      (((simulate_with_acpe 0 (3/5) (-8) 3).1).getLast?).map Sample.time = some (1/100) ∧
      (simulate_no_acpe 0 3).2 = true ∧
      ((simulate_no_acpe 0 3).1).length = 2 ∧
      (((simulate_no_acpe 0 3).1).getLast?).map Sample.time = some (1/100)) ∧
    (2 ≤ ((simulate_with_acpe 0 (3/5) (-8) 3).1).length) ∧
    (2 ≤ ((simulate_no_acpe 0 3).1).length) :=
  ⟨rfl, (claim_C5_immediate_obstacle 0 (3/5) (-8) 3).1 rfl,
    (claim_C5_immediate_obstacle 0 (3/5) (-8) 3).2.1
      ((claim_C5_immediate_obstacle 0 (3/5) (-8) 3).1 rfl).1,
    (claim_C5_immediate_obstacle 0 (3/5) (-8) 3).2.2
      ((claim_C5_immediate_obstacle 0 (3/5) (-8) 3).1 rfl).2.2.2.1⟩

/-- C6 counterexample: at obstacle distance 0 the run flags a collision, but
the first trajectory sample whose position reaches the obstacle distance is
the initial `(0, 0, 0)` sample, which is not the last sample of the
trajectory, contradicting the claim as stated. -/
theorem claim_C6_counterexample :
    (simulate_with_acpe 0 (3/5) (-8) 3).2 = true ∧
    ((simulate_with_acpe 0 (3/5) (-8) 3).1).find? (fun x => decide (x.position ≥ 0))
      = some ⟨0, 0, 0⟩ ∧
    ((simulate_with_acpe 0 (3/5) (-8) 3).1).getLast? ≠ some (⟨0, 0, 0⟩ : Sample) := by
  have hW := simulate_one_step (acpePolicy (3/5) (-8) 3) 0
    (stateAt_one_position_nonneg _ _ (by norm_num))
  have hl : (simulate_with_acpe 0 (3/5) (-8) 3).1
      = [⟨0, 0, 0⟩, sampleAt (acpePolicy (3/5) (-8) 3) (1/100) 1] := hW.2
  refine ⟨hW.1, ?_, ?_⟩
  · rw [hl]
    simp [List.find?_cons]
  · rw [hl]
    simp [sampleAt, tAt, Sample.mk.injEq]

theorem collisionSpeedKph_col (traj : List Sample) (d : ℚ) (x : Sample)
    (hfind : traj.find? (fun y => decide (y.position ≥ d)) = some x) :
    collisionSpeedKph traj true d = x.velocity * 3.6 := by
  unfold collisionSpeedKph
  rw [hfind]
  rfl

/-- C6 amended: provided the obstacle distance is positive, a flagged
collision means: the first trajectory sample whose position reaches the
obstacle distance is the last sample (so the trajectory length is that
sample's index plus one), every earlier sample's position is strictly below
the obstacle distance, and the extracted collision speed is that last
sample's velocity (converted to KPH). -/
theorem claim_C6_amended (d delay_s brake_decel accel : ℚ) (hd : 0 < d) :
    ((simulate_with_acpe d delay_s brake_decel accel).2 = true →
      ((simulate_with_acpe d delay_s brake_decel accel).1).find?
          (fun x => decide (x.position ≥ d))
        = ((simulate_with_acpe d delay_s brake_decel accel).1).getLast? ∧
      (∀ i, ∀ hi : i + 1 < ((simulate_with_acpe d delay_s brake_decel accel).1).length,
        (((simulate_with_acpe d delay_s brake_decel accel).1).get
          ⟨i, Nat.lt_of_succ_lt hi⟩).position < d) ∧
      (((simulate_with_acpe d delay_s brake_decel accel).1).getLast?).map
          (fun x => x.velocity * (3.6:ℚ))
        = some (collisionSpeedKph (simulate_with_acpe d delay_s brake_decel accel).1
            (simulate_with_acpe d delay_s brake_decel accel).2 d)) ∧
    ((simulate_no_acpe d accel).2 = true →
      ((simulate_no_acpe d accel).1).find? (fun x => decide (x.position ≥ d))
        = ((simulate_no_acpe d accel).1).getLast? ∧
      (∀ i, ∀ hi : i + 1 < ((simulate_no_acpe d accel).1).length,
        (((simulate_no_acpe d accel).1).get ⟨i, Nat.lt_of_succ_lt hi⟩).position < d) ∧
      (((simulate_no_acpe d accel).1).getLast?).map (fun x => x.velocity * (3.6:ℚ))
        = some (collisionSpeedKph (simulate_no_acpe d accel).1
            (simulate_no_acpe d accel).2 d)) := by
  constructor
  · intro hc
    have hf : ((simulate_with_acpe d delay_s brake_decel accel).1).find?
        (fun x => decide (x.position ≥ d))
      = some (sampleAt (acpePolicy delay_s brake_decel accel) (1/100)
          (((simulate_with_acpe d delay_s brake_decel accel).1).length - 1)) :=
      simulate_find? (acpePolicy delay_s brake_decel accel) d (1/100) 10 1001 hd hc
    have hl : ((simulate_with_acpe d delay_s brake_decel accel).1).getLast?
      = some (sampleAt (acpePolicy delay_s brake_decel accel) (1/100)
          (((simulate_with_acpe d delay_s brake_decel accel).1).length - 1)) :=
      simulate_getLast? (acpePolicy delay_s brake_decel accel) d (1/100) 10 1001 hc
    have hcol := simulate_col (acpePolicy delay_s brake_decel accel) d (1/100) 10 1001 hc
    have h3 : ∀ i, 1 ≤ i → i < ((simulate_with_acpe d delay_s brake_decel accel).1).length - 1 →
        (stateAt (acpePolicy delay_s brake_decel accel) (1/100) i).2 < d := hcol.2.2
    refine ⟨by rw [hf, hl], ?_, ?_⟩
    · intro i hi
      have hg : (((simulate_with_acpe d delay_s brake_decel accel).1).get
          ⟨i, Nat.lt_of_succ_lt hi⟩)
        = sampleAt (acpePolicy delay_s brake_decel accel) (1/100) i :=
        simulate_get (acpePolicy delay_s brake_decel accel) d (1/100) 10 1001 i
          (Nat.lt_of_succ_lt hi)
      rw [hg]
      show (stateAt (acpePolicy delay_s brake_decel accel) (1/100) i).2 < d
      cases i with
      | zero => exact hd
      | succ j => exact h3 (j + 1) (by omega) (by omega)
    · rw [hl, hc, collisionSpeedKph_col _ _ _ hf]
      rfl
  · intro hc
    have hf : ((simulate_no_acpe d accel).1).find? (fun x => decide (x.position ≥ d))
      = some (sampleAt (noAcpePolicy accel) (1/100)
          (((simulate_no_acpe d accel).1).length - 1)) :=
      simulate_find? (noAcpePolicy accel) d (1/100) 10 1001 hd hc
    have hl : ((simulate_no_acpe d accel).1).getLast?
      = some (sampleAt (noAcpePolicy accel) (1/100)
          (((simulate_no_acpe d accel).1).length - 1)) :=
      simulate_getLast? (noAcpePolicy accel) d (1/100) 10 1001 hc
    have hcol := simulate_col (noAcpePolicy accel) d (1/100) 10 1001 hc
    have h3 : ∀ i, 1 ≤ i → i < ((simulate_no_acpe d accel).1).length - 1 →
        (stateAt (noAcpePolicy accel) (1/100) i).2 < d := hcol.2.2
    refine ⟨by rw [hf, hl], ?_, ?_⟩
    · intro i hi
      have hg : (((simulate_no_acpe d accel).1).get ⟨i, Nat.lt_of_succ_lt hi⟩)
        = sampleAt (noAcpePolicy accel) (1/100) i :=
        simulate_get (noAcpePolicy accel) d (1/100) 10 1001 i (Nat.lt_of_succ_lt hi)
      rw [hg]
      show (stateAt (noAcpePolicy accel) (1/100) i).2 < d
      cases i with
      | zero => exact hd
      | succ j => exact h3 (j + 1) (by omega) (by omega)
    · rw [hl, hc, collisionSpeedKph_col _ _ _ hf]
      rfl

/-- Witness for the amended C6 at a concrete input. -/
theorem claim_C6_witness :
    ((0:ℚ) < 1/10000) ∧
    ((simulate_with_acpe (1/10000) (3/5) (-8) 3).2 = true) ∧
    (((simulate_with_acpe (1/10000) (3/5) (-8) 3).1).find?
        (fun x => decide (x.position ≥ 1/10000))
      = ((simulate_with_acpe (1/10000) (3/5) (-8) 3).1).getLast? ∧
      (∀ i, ∀ hi : i + 1 < ((simulate_with_acpe (1/10000) (3/5) (-8) 3).1).length,
        (((simulate_with_acpe (1/10000) (3/5) (-8) 3).1).get
          ⟨i, Nat.lt_of_succ_lt hi⟩).position < 1/10000) ∧
      (((simulate_with_acpe (1/10000) (3/5) (-8) 3).1).getLast?).map
          (fun x => x.velocity * (3.6:ℚ))
        = some (collisionSpeedKph (simulate_with_acpe (1/10000) (3/5) (-8) 3).1
            (simulate_with_acpe (1/10000) (3/5) (-8) 3).2 (1/10000))) ∧
    ((simulate_no_acpe (1/10000) 3).2 = true) ∧
    (((simulate_no_acpe (1/10000) 3).1).find? (fun x => decide (x.position ≥ 1/10000))
      = ((simulate_no_acpe (1/10000) 3).1).getLast? ∧
      (∀ i, ∀ hi : i + 1 < ((simulate_no_acpe (1/10000) 3).1).length,
        (((simulate_no_acpe (1/10000) 3).1).get
          ⟨i, Nat.lt_of_succ_lt hi⟩).position < 1/10000) ∧
      (((simulate_no_acpe (1/10000) 3).1).getLast?).map (fun x => x.velocity * (3.6:ℚ))
        = some (collisionSpeedKph (simulate_no_acpe (1/10000) 3).1
            (simulate_no_acpe (1/10000) 3).2 (1/10000))) :=
  ⟨by norm_num, wrunA_spec.1,
    (claim_C6_amended (1/10000) (3/5) (-8) 3 (by norm_num)).1 wrunA_spec.1,
    nrunA_spec.1,
    (claim_C6_amended (1/10000) (3/5) (-8) 3 (by norm_num)).2 nrunA_spec.1⟩

/-- C2 counterexample: with brake deceleration 0, obstacle distance 1,
sudden acceleration 10 > 0 and reaction delay 0 (in range), the no-ACPE run
collides while the with-ACPE run never moves (after the zero delay the
policy immediately returns 0 for a standing vehicle), so the two runs do
not collide at the same time and speed. -/
theorem claim_C2_counterexample :
    (simulate_no_acpe 1 10).2 = true ∧ (simulate_with_acpe 1 0 0 10).2 = false := by
  constructor
  · have hs45 : (1:ℚ) ≤ (stateAt (noAcpePolicy 10) (1/100) 45).2 := by
      have h := (noAcpe_state_closed 10 (1/100) (by norm_num) (by norm_num) 45).2
      rw [h]
      push_cast
      norm_num
    obtain ⟨hcol, -⟩ := simLoop_col_complete (noAcpePolicy 10) 1 1001 0 45
      (by omega) (by omega) (by omega) hs45
    exact hcol
  · exact acpe_zero_delay_stuck 0 10 1 (by norm_num) 1001 0 (le_refl 0)

/-- C2 amended: with brake deceleration 0, obstacle distance 1 and any
positive sudden acceleration: provided the no-ACPE collision occurs strictly
before the reaction delay elapses (every sample time of the no-ACPE
trajectory is below the delay), the with-ACPE run is sample-for-sample
identical, so both runs collide at the same time and at the same speed. -/
theorem claim_C2_amended (delay_s accel : ℚ) (hacc : 0 < accel)
    (hcol : (simulate_no_acpe 1 accel).2 = true)
    (hdelay : ∀ x ∈ (simulate_no_acpe 1 accel).1, x.time < delay_s) :
    (simulate_with_acpe 1 delay_s 0 accel).2 = true ∧
    simulate_with_acpe 1 delay_s 0 accel = simulate_no_acpe 1 accel := by
  have hagree : ∀ t v, t < delay_s →
      acpePolicy delay_s 0 accel t v = noAcpePolicy accel t v := by
    intro t v ht
    unfold acpePolicy noAcpePolicy
    rw [if_pos ht]
  have hcol' : (simLoop (noAcpePolicy accel) 1 (1/100) 10 1001 0 0 0).2 = true := hcol
  have hmem' : ∀ x ∈ (simLoop (noAcpePolicy accel) 1 (1/100) 10 1001 0 0 0).1,
      x.time < delay_s := by
    intro x hx
    exact hdelay x (List.mem_cons_of_mem _ hx)
  have heq := simLoop_policy_agree (acpePolicy delay_s 0 accel) (noAcpePolicy accel)
    delay_s 1 (1/100) 10 hagree 1001 0 0 0 hcol' hmem'
  have hruns : simulate_with_acpe 1 delay_s 0 accel = simulate_no_acpe 1 accel := by
    show (({ time := 0, velocity := 0, position := 0 } : Sample)
        :: (simLoop (acpePolicy delay_s 0 accel) 1 (1/100) 10 1001 0 0 0).1,
      (simLoop (acpePolicy delay_s 0 accel) 1 (1/100) 10 1001 0 0 0).2)
      = (({ time := 0, velocity := 0, position := 0 } : Sample)
        :: (simLoop (noAcpePolicy accel) 1 (1/100) 10 1001 0 0 0).1,
      (simLoop (noAcpePolicy accel) 1 (1/100) 10 1001 0 0 0).2)
    rw [heq]
  exact ⟨by rw [hruns]; exact hcol, hruns⟩

theorem nrunC_col : (simulate_no_acpe 1 10000).2 = true ∧
    (simulate_no_acpe 1 10000).1 = [⟨0, 0, 0⟩, ⟨1/100, 100, 1⟩] := by
  have hp : noAcpePolicy 10000 (1/100) 0 = 10000 := rfl
  have h1 : (1:ℚ) ≤ (stateAt (noAcpePolicy 10000) (1/100) 1).2 := by
    rw [stateAt_one]
    show (1:ℚ) ≤ max 0 (noAcpePolicy 10000 (1/100) 0 * (1/100)) * (1/100)
    rw [hp, max_eq_right (by norm_num : (0:ℚ) ≤ 10000 * (1/100))]
    norm_num
  have hmain := simulate_one_step (noAcpePolicy 10000) 1 h1
  refine ⟨hmain.1, ?_⟩
  have hl : (simulate_no_acpe 1 10000).1
      = [⟨0, 0, 0⟩, sampleAt (noAcpePolicy 10000) (1/100) 1] := hmain.2
  rw [hl, sampleAt_one, hp, max_eq_right (by norm_num : (0:ℚ) ≤ 10000 * (1/100))]
  norm_num

theorem nrunC_times : ∀ x ∈ (simulate_no_acpe 1 10000).1, x.time < 1 := by
  intro x hx
  rw [nrunC_col.2] at hx
  simp only [List.mem_cons, List.mem_singleton, List.not_mem_nil, or_false] at hx
  rcases hx with h | h
  · rw [h]
    show (0:ℚ) < 1
    norm_num
  · rw [h]
    show (1:ℚ)/100 < 1
    norm_num

/-- Witness for the amended C2 at a concrete input. -/
theorem claim_C2_witness :
    ((0:ℚ) < 10000) ∧
    ((simulate_no_acpe 1 10000).2 = true) ∧
    (∀ x ∈ (simulate_no_acpe 1 10000).1, x.time < 1) ∧
    ((simulate_with_acpe 1 1 0 10000).2 = true ∧
      simulate_with_acpe 1 1 0 10000 = simulate_no_acpe 1 10000) :=
  ⟨by norm_num, nrunC_col.1, nrunC_times,
    claim_C2_amended 1 10000 (by norm_num) nrunC_col.1 nrunC_times⟩

/-- C10: with non-negative sudden acceleration and non-positive brake
deceleration, the with-ACPE run is pointwise dominated by the no-ACPE run
(velocity and position, at every index present in both trajectories), and
consequently whenever the with-ACPE run collides the no-ACPE run collides
no later (its trajectory is no longer). -/
theorem claim_C10_pointwise_domination (d delay_s brake_decel accel : ℚ)
    (hacc : 0 ≤ accel) (hbrake : brake_decel ≤ 0) :
    (∀ i, ∀ hiW : i < ((simulate_with_acpe d delay_s brake_decel accel).1).length,
      ∀ hiN : i < ((simulate_no_acpe d accel).1).length,
      (((simulate_with_acpe d delay_s brake_decel accel).1).get ⟨i, hiW⟩).velocity
        ≤ (((simulate_no_acpe d accel).1).get ⟨i, hiN⟩).velocity ∧
      (((simulate_with_acpe d delay_s brake_decel accel).1).get ⟨i, hiW⟩).position
        ≤ (((simulate_no_acpe d accel).1).get ⟨i, hiN⟩).position) ∧
    ((simulate_with_acpe d delay_s brake_decel accel).2 = true →
      (simulate_no_acpe d accel).2 = true ∧
      ((simulate_no_acpe d accel).1).length
        ≤ ((simulate_with_acpe d delay_s brake_decel accel).1).length) := by
  constructor
  · intro i hiW hiN
    have hgW : (((simulate_with_acpe d delay_s brake_decel accel).1).get ⟨i, hiW⟩)
        = sampleAt (acpePolicy delay_s brake_decel accel) (1/100) i :=
      simulate_get (acpePolicy delay_s brake_decel accel) d (1/100) 10 1001 i hiW
    have hgN : (((simulate_no_acpe d accel).1).get ⟨i, hiN⟩)
        = sampleAt (noAcpePolicy accel) (1/100) i :=
      simulate_get (noAcpePolicy accel) d (1/100) 10 1001 i hiN
    rw [hgW, hgN]
    exact state_le delay_s brake_decel accel (1/100) hacc hbrake (by norm_num) i
  · intro hcW
    have hcolW := simulate_col (acpePolicy delay_s brake_decel accel) d (1/100) 10 1001 hcW
    have h2W : 2 ≤ ((simulate_with_acpe d delay_s brake_decel accel).1).length := hcolW.1
    have hlenW : ((simulate_with_acpe d delay_s brake_decel accel).1).length ≤ 1001 :=
      simulate_length (acpePolicy delay_s brake_decel accel) d
    have hsW : d ≤ (stateAt (acpePolicy delay_s brake_decel accel) (1/100)
        (((simulate_with_acpe d delay_s brake_decel accel).1).length - 1)).2 := hcolW.2.1
    have hsN : d ≤ (stateAt (noAcpePolicy accel) (1/100)
        (((simulate_with_acpe d delay_s brake_decel accel).1).length - 1)).2 :=
      le_trans hsW (state_le delay_s brake_decel accel (1/100) hacc hbrake (by norm_num) _).2
    obtain ⟨hcolN, hlenN⟩ := simLoop_col_complete (noAcpePolicy accel) d 1001 0
      (((simulate_with_acpe d delay_s brake_decel accel).1).length - 1)
      (by omega) (by omega) (by omega) hsN
    refine ⟨hcolN, ?_⟩
    have hlen : ((simulate_no_acpe d accel).1).length
        = ((simLoop (noAcpePolicy accel) d (1/100) 10 1001 (tAt (1/100) 0)
            (stateAt (noAcpePolicy accel) (1/100) 0).1
            (stateAt (noAcpePolicy accel) (1/100) 0).2).1).length + 1 := rfl
    omega

/-- Witness for C10 at a concrete input. -/
theorem claim_C10_witness :
    ((0:ℚ) ≤ 3) ∧ ((-8:ℚ) ≤ 0) ∧
    ((((simulate_with_acpe (1/10000) (3/5) (-8) 3).1).get
        ⟨1, by rw [wrunA_len]; omega⟩).velocity
      ≤ (((simulate_no_acpe (1/10000) 3).1).get ⟨1, by rw [nrunA_len]; omega⟩).velocity ∧
      (((simulate_with_acpe (1/10000) (3/5) (-8) 3).1).get
        ⟨1, by rw [wrunA_len]; omega⟩).position
      ≤ (((simulate_no_acpe (1/10000) 3).1).get ⟨1, by rw [nrunA_len]; omega⟩).position) ∧
    ((simulate_with_acpe (1/10000) (3/5) (-8) 3).2 = true) ∧
    ((simulate_no_acpe (1/10000) 3).2 = true ∧
      ((simulate_no_acpe (1/10000) 3).1).length
        ≤ ((simulate_with_acpe (1/10000) (3/5) (-8) 3).1).length) :=
  ⟨by norm_num, by norm_num,
    (claim_C10_pointwise_domination (1/10000) (3/5) (-8) 3 (by norm_num) (by norm_num)).1
      1 (by rw [wrunA_len]; omega) (by rw [nrunA_len]; omega),
    wrunA_spec.1,
    (claim_C10_pointwise_domination (1/10000) (3/5) (-8) 3 (by norm_num) (by norm_num)).2
      wrunA_spec.1⟩

theorem velocity_cross_le (delay_s brake_decel accel d : ℚ)
    (hacc : 0 ≤ accel) (hbrake : brake_decel ≤ 0)
    (kW kN : Nat)
    (hbW : ∀ j, j < kW → (stateAt (acpePolicy delay_s brake_decel accel) (1/100) j).2 < d)
    (hsN : d ≤ (stateAt (noAcpePolicy accel) (1/100) kN).2) :
    (stateAt (acpePolicy delay_s brake_decel accel) (1/100) kW).1
      ≤ (stateAt (noAcpePolicy accel) (1/100) kN).1 := by
  have hPj0 : ∀ i, 1 ≤ i →
      i ≤ Nat.findGreatest (fun j => tAt (1/100) j < delay_s) kW →
      tAt (1/100) i < delay_s := by
    intro i h1 h2
    have hne : Nat.findGreatest (fun j => tAt (1/100) j < delay_s) kW ≠ 0 := by omega
    have hP : tAt (1/100) (Nat.findGreatest (fun j => tAt (1/100) j < delay_s) kW)
        < delay_s := Nat.findGreatest_of_ne_zero rfl hne
    have hmono : tAt (1/100) i
        ≤ tAt (1/100) (Nat.findGreatest (fun j => tAt (1/100) j < delay_s) kW) := by
      rw [tAt_eq, tAt_eq]
      have hc : (i:ℚ) ≤ ((Nat.findGreatest (fun j => tAt (1/100) j < delay_s) kW : Nat) : ℚ) := by
        exact_mod_cast h2
      nlinarith
    linarith
  have heq := states_eq_before delay_s brake_decel accel (1/100)
    (Nat.findGreatest (fun j => tAt (1/100) j < delay_s) kW) hPj0
  have h1 : (stateAt (acpePolicy delay_s brake_decel accel) (1/100) kW).1
      ≤ (stateAt (acpePolicy delay_s brake_decel accel) (1/100)
          (Nat.findGreatest (fun j => tAt (1/100) j < delay_s) kW)).1 :=
    acpe_velocity_le_of_after delay_s brake_decel accel (1/100) hbrake (by norm_num)
      (Nat.findGreatest (fun j => tAt (1/100) j < delay_s) kW) kW
      (Nat.findGreatest_le kW)
      (fun i hi hik => Nat.findGreatest_is_greatest hi hik)
  have hj0kN : Nat.findGreatest (fun j => tAt (1/100) j < delay_s) kW ≤ kN := by
    by_contra hlt
    push_neg at hlt
    have hPi : ∀ i, 1 ≤ i → i ≤ kN → tAt (1/100) i < delay_s :=
      fun i hi1 hi2 => hPj0 i hi1 (by omega)
    have heqN := states_eq_before delay_s brake_decel accel (1/100) kN hPi
    have hkNW : kN < kW := by
      have hle := Nat.findGreatest_le (P := fun j => tAt (1/100) j < delay_s) kW
      omega
    have hlow := hbW kN hkNW
    rw [heqN] at hlow
    linarith
  calc (stateAt (acpePolicy delay_s brake_decel accel) (1/100) kW).1
      ≤ (stateAt (acpePolicy delay_s brake_decel accel) (1/100)
          (Nat.findGreatest (fun j => tAt (1/100) j < delay_s) kW)).1 := h1
    _ = (stateAt (noAcpePolicy accel) (1/100)
          (Nat.findGreatest (fun j => tAt (1/100) j < delay_s) kW)).1 := by rw [heq]
    _ ≤ (stateAt (noAcpePolicy accel) (1/100) kN).1 :=
        noAcpe_velocity_mono accel (1/100) hacc (by norm_num) _ kN hj0kN

theorem reduction_bounds (ns ws : ℚ) (hws : 0 ≤ ws) (hle : ws ≤ ns) :
    0 ≤ reduction ns ws ∧ reduction ns ws ≤ 100 := by
  unfold reduction
  split_ifs with h
  · constructor
    · apply mul_nonneg (div_nonneg (by linarith) (le_of_lt h))
      norm_num
    · have h1 : (ns - ws) / ns ≤ 1 := by
        rw [div_le_one h]
        linarith
      calc (ns - ws) / ns * 100 ≤ 1 * 100 :=
            mul_le_mul_of_nonneg_right h1 (by norm_num)
        _ = 100 := by norm_num
  · norm_num

/-- C4: whenever both scenarios collide and the brake deceleration is
strictly negative, the derived reduction metric (with its division-by-zero
guard) lies between 0 and 100. -/
theorem claim_C4_reduction_bound (d delay_ms brake_decel accel : ℚ)
    (hd : 0 ≤ d) (hacc : 0 ≤ accel) (hbrake : brake_decel < 0)
    (hcW : ((run_comparison d delay_ms brake_decel accel).acpe).2 = true)
    (hcN : ((run_comparison d delay_ms brake_decel accel).no_acpe).2 = true) :
    0 ≤ (run_comparison d delay_ms brake_decel accel).speed_reduction_percent ∧
    (run_comparison d delay_ms brake_decel accel).speed_reduction_percent ≤ 100 := by
  have hcW' : (simulate_with_acpe d (delay_ms / 1000) brake_decel accel).2 = true := hcW
  have hcN' : (simulate_no_acpe d accel).2 = true := hcN
  have hsp : (run_comparison d delay_ms brake_decel accel).speed_reduction_percent
      = reduction
          (collisionSpeedKph (simulate_no_acpe d accel).1 (simulate_no_acpe d accel).2 d)
          (collisionSpeedKph (simulate_with_acpe d (delay_ms / 1000) brake_decel accel).1
            (simulate_with_acpe d (delay_ms / 1000) brake_decel accel).2 d) := by
    show (if (simulate_with_acpe d (delay_ms / 1000) brake_decel accel).2
          && (simulate_no_acpe d accel).2 then
        reduction
          (collisionSpeedKph (simulate_no_acpe d accel).1 (simulate_no_acpe d accel).2 d)
          (collisionSpeedKph (simulate_with_acpe d (delay_ms / 1000) brake_decel accel).1
            (simulate_with_acpe d (delay_ms / 1000) brake_decel accel).2 d)
      else 0) = _
    rw [hcW', hcN']
    rfl
  rcases eq_or_lt_of_le hd with hd0 | hdpos
  · have hfW : ((simulate_with_acpe d (delay_ms / 1000) brake_decel accel).1).find?
        (fun x => decide (x.position ≥ d)) = some ⟨0, 0, 0⟩ := by
      rw [← hd0]
      show (({ time := 0, velocity := 0, position := 0 } : Sample)
          :: (simLoop (acpePolicy (delay_ms / 1000) brake_decel accel) 0
            (1/100) 10 1001 0 0 0).1).find?
          (fun x => decide (x.position ≥ (0:ℚ))) = some ⟨0, 0, 0⟩
      rw [List.find?_cons]
      have hp : decide ((({ time := 0, velocity := 0, position := 0 } : Sample)).position
          ≥ (0:ℚ)) = true := by decide
      rw [hp]
    have hfN : ((simulate_no_acpe d accel).1).find?
        (fun x => decide (x.position ≥ d)) = some ⟨0, 0, 0⟩ := by
      rw [← hd0]
      show (({ time := 0, velocity := 0, position := 0 } : Sample)
          :: (simLoop (noAcpePolicy accel) 0 (1/100) 10 1001 0 0 0).1).find?
          (fun x => decide (x.position ≥ (0:ℚ))) = some ⟨0, 0, 0⟩
      rw [List.find?_cons]
      have hp : decide ((({ time := 0, velocity := 0, position := 0 } : Sample)).position
          ≥ (0:ℚ)) = true := by decide
      rw [hp]
    rw [hsp, hcW', hcN', collisionSpeedKph_col _ _ _ hfW, collisionSpeedKph_col _ _ _ hfN]
    have hzero : (({ time := 0, velocity := 0, position := 0 } : Sample)).velocity
        * (3.6:ℚ) = 0 := by
      show (0:ℚ) * 3.6 = 0
      norm_num
    rw [hzero]
    exact reduction_bounds 0 0 (le_refl 0) (le_refl 0)
  · have hfW : ((simulate_with_acpe d (delay_ms / 1000) brake_decel accel).1).find?
        (fun x => decide (x.position ≥ d))
      = some (sampleAt (acpePolicy (delay_ms / 1000) brake_decel accel) (1/100)
          (((simulate_with_acpe d (delay_ms / 1000) brake_decel accel).1).length - 1)) :=
      simulate_find? (acpePolicy (delay_ms / 1000) brake_decel accel) d (1/100) 10 1001
        hdpos hcW'
    have hfN : ((simulate_no_acpe d accel).1).find? (fun x => decide (x.position ≥ d))
      = some (sampleAt (noAcpePolicy accel) (1/100)
          (((simulate_no_acpe d accel).1).length - 1)) :=
      simulate_find? (noAcpePolicy accel) d (1/100) 10 1001 hdpos hcN'
    have hcolW := simulate_col (acpePolicy (delay_ms / 1000) brake_decel accel) d
      (1/100) 10 1001 hcW'
    have hcolN := simulate_col (noAcpePolicy accel) d (1/100) 10 1001 hcN'
    have h3W : ∀ i, 1 ≤ i →
        i < ((simulate_with_acpe d (delay_ms / 1000) brake_decel accel).1).length - 1 →
        (stateAt (acpePolicy (delay_ms / 1000) brake_decel accel) (1/100) i).2 < d :=
      hcolW.2.2
    have hbW : ∀ j,
        j < ((simulate_with_acpe d (delay_ms / 1000) brake_decel accel).1).length - 1 →
        (stateAt (acpePolicy (delay_ms / 1000) brake_decel accel) (1/100) j).2 < d := by
      intro j hj
      cases j with
      | zero => exact hdpos
      | succ i => exact h3W (i + 1) (by omega) hj
    have hsN : d ≤ (stateAt (noAcpePolicy accel) (1/100)
        (((simulate_no_acpe d accel).1).length - 1)).2 := hcolN.2.1
    have key := velocity_cross_le (delay_ms / 1000) brake_decel accel d hacc
      (le_of_lt hbrake)
      (((simulate_with_acpe d (delay_ms / 1000) brake_decel accel).1).length - 1)
      (((simulate_no_acpe d accel).1).length - 1) hbW hsN
    rw [hsp, hcW', hcN', collisionSpeedKph_col _ _ _ hfW, collisionSpeedKph_col _ _ _ hfN]
    apply reduction_bounds
    · show 0 ≤ (stateAt (acpePolicy (delay_ms / 1000) brake_decel accel) (1/100)
        (((simulate_with_acpe d (delay_ms / 1000) brake_decel accel).1).length - 1)).1
          * (3.6:ℚ)
      exact mul_nonneg (stateAt_velocity_nonneg _ _ _) (by norm_num)
    · show (stateAt (acpePolicy (delay_ms / 1000) brake_decel accel) (1/100)
          (((simulate_with_acpe d (delay_ms / 1000) brake_decel accel).1).length - 1)).1
            * (3.6:ℚ)
        ≤ (stateAt (noAcpePolicy accel) (1/100)
            (((simulate_no_acpe d accel).1).length - 1)).1 * (3.6:ℚ)
      exact mul_le_mul_of_nonneg_right key (by norm_num)

theorem wrunB_col : (simulate_with_acpe (1/10000) (600/1000) (-8) 3).2 = true := by
  have hp : acpePolicy (600/1000) (-8) 3 (1/100) 0 = 3 := by norm_num [acpePolicy]
  have h1 : (1:ℚ)/10000 ≤ (stateAt (acpePolicy (600/1000) (-8) 3) (1/100) 1).2 := by
    rw [stateAt_one]
    show (1:ℚ)/10000 ≤ max 0 (acpePolicy (600/1000) (-8) 3 (1/100) 0 * (1/100)) * (1/100)
    rw [hp, max_eq_right (by norm_num : (0:ℚ) ≤ 3 * (1/100))]
    norm_num
  exact (simulate_one_step _ _ h1).1

/-- Witness for C4 at a concrete input. -/
theorem claim_C4_witness :
    ((0:ℚ) ≤ 1/10000) ∧ ((0:ℚ) ≤ 3) ∧ ((-8:ℚ) < 0) ∧
    ((run_comparison (1/10000) 600 (-8) 3).acpe.2 = true) ∧
    ((run_comparison (1/10000) 600 (-8) 3).no_acpe.2 = true) ∧
    (0 ≤ (run_comparison (1/10000) 600 (-8) 3).speed_reduction_percent ∧
      (run_comparison (1/10000) 600 (-8) 3).speed_reduction_percent ≤ 100) :=
  ⟨by norm_num, by norm_num, by norm_num, wrunB_col, nrunA_spec.1,
    claim_C4_reduction_bound (1/10000) 600 (-8) 3 (by norm_num) (by norm_num)
      (by norm_num) wrunB_col nrunA_spec.1⟩

/-- The exact value of the source's IEEE-double time accumulator after the
1000 additions of the double closest to 0.01 performed by the loop (each
partial sum rounded to binary64): 9.999999999999831..., strictly below the
10-second budget.  The denominator is 2 ^ 49. -/
def floatTimeAfter1000 : ℚ := 5629499534213025 / 562949953421312

/-- C3: the claimed bound `time_budget / time_step = 1000` is the
exact-arithmetic intent, and the floating-point program overruns it by one
sample.  In exact rationals the accumulated time reaches exactly 10 after
1000 steps, so the strict guard stops every run within 1000 appended samples
(last conjunct, both scenarios).  The source, however, accumulates IEEE
doubles: after 1000 additions the time is `floatTimeAfter1000 < 10`, the
guard `time[-1] < max_time` still passes, and a loop entered with that time
value appends one more sample — so a real no-collision run (for example with
sudden acceleration 0) appends 1001 samples, one beyond the claimed bound. -/
theorem claim_C3_step_bound :
    tAt (1/100) 1000 = 10 ∧
    floatTimeAfter1000 < 10 ∧
    (∀ (policy : ℚ → ℚ → ℚ) (d v s : ℚ) (fuel : Nat),
      1 ≤ ((simLoop policy d (1/100) 10 (fuel + 1) floatTimeAfter1000 v s).1).length) ∧
    (∀ d delay_s brake_decel accel : ℚ,
      ((simulate_with_acpe d delay_s brake_decel accel).1).length - 1 ≤ 1000 ∧
      ((simulate_no_acpe d accel).1).length - 1 ≤ 1000) := by
  have hflt : floatTimeAfter1000 < 10 := by
    unfold floatTimeAfter1000
    norm_num
  refine ⟨?_, hflt, ?_, exact_step_bound⟩
  · rw [tAt_eq]
    norm_num
  · intro policy d v s fuel
    simp only [simLoop]
    rw [if_pos hflt]
    split_ifs
    · simp
    · simp
